import Mathlib

/-
Verification of the ricedebias bias-correction pipeline (src/ricedebias.cpp)
against its natural-language specification.

The embedding models the pipeline over exact rationals: the C++ code computes
in `double` and the grid values are scalars; we use `Rat` for all scalar
values so that arithmetic is exact and decidable.  External collaborators
(the nifti image codec, the scalar correction formula `smt::ricedebias`,
`smt::threads`, `smt::format_string`) are not part of the translated source
file; they are modelled as parameters collected in an `Env` record, and the
output-volume allocator is modelled from the spec (its header-copy contract).
-/

namespace RiceDebias

/-- Scalar values of the pipeline (the C++ `double` world, modelled exactly). -/
abbrev Val := Rat

/-- Volume with three axes (`smt::inifti<float_t, 3>`): spatial sizes, voxel
spacings, a coordinate transform (kept abstract as a list of entries) and the
grid data.  The C++ empty state of `inifti` is modelled as `Option Vol3`. -/
structure Vol3 where
  size0 : Nat
  size1 : Nat
  size2 : Nat
  pixsize0 : Val
  pixsize1 : Val
  pixsize2 : Val
  coords : List Val
  data : Nat → Nat → Nat → Val

/-- Volume with four axes (`smt::inifti<float_t, 4>`): three spatial axes and
the series axis. -/
structure Vol4 where
  size0 : Nat
  size1 : Nat
  size2 : Nat
  size3 : Nat
  pixsize0 : Val
  pixsize1 : Val
  pixsize2 : Val
  coords : List Val
  data : Nat → Nat → Nat → Nat → Val

/-- Spatial geometry of a volume: the fields compared by the compatibility
checks in `main` (extent per spatial axis, voxel spacing per spatial axis,
coordinate transform). -/
structure Geom where
  size0 : Nat
  size1 : Nat
  size2 : Nat
  pixsize0 : Val
  pixsize1 : Val
  pixsize2 : Val
  coords : List Val

/-- Spatial geometry carried by a 3-axis volume. -/
def Vol3.geom (v : Vol3) : Geom :=
  ⟨v.size0, v.size1, v.size2, v.pixsize0, v.pixsize1, v.pixsize2, v.coords⟩

/-- Spatial geometry carried by a 4-axis volume. -/
def Vol4.geom (v : Vol4) : Geom :=
  ⟨v.size0, v.size1, v.size2, v.pixsize0, v.pixsize1, v.pixsize2, v.coords⟩

/-- Class of a geometry mismatch, in the order the checks run in `main`:
spatial extents (`size`), voxel spacings (`pixsize`), coordinate transform
(`has_equal_spatial_coords`, modelled from the spec as exact equality of the
coordinate transforms). -/
inductive MismatchClass where
  | extent : MismatchClass
  | spacing : MismatchClass
  | coords : MismatchClass
deriving DecidableEq

/-- Sequential geometry checks of `main` (src/ricedebias.cpp lines 183-197 and
203-217): first the three spatial extents, then the three voxel spacings, then
the coordinate transforms; the first failing group is reported. -/
def checkGeom (a b : Geom) : Option MismatchClass :=
  if a.size0 ≠ b.size0 ∨ a.size1 ≠ b.size1 ∨ a.size2 ≠ b.size2 then
    some MismatchClass.extent
  else if a.pixsize0 ≠ b.pixsize0 ∨ a.pixsize1 ≠ b.pixsize1 ∨ a.pixsize2 ≠ b.pixsize2 then
    some MismatchClass.spacing
  else if a.coords ≠ b.coords then
    some MismatchClass.coords
  else
    none

/-- Geometry compatibility predicate of the spec: two volumes are compatible
iff none of the checks of `main` fails. -/
def compatible (a b : Geom) : Bool :=
  (checkGeom a b).isNone

/-- Compatibility check between the 4-axis input volume and a 3-axis mask or
noise-map volume, exactly the comparisons `main` performs. -/
def checkPair (input : Vol4) (other : Vol3) : Option MismatchClass :=
  checkGeom input.geom other.geom

/-- Diagnostic message emitted by `main` for each mismatch class (the literal
strings of src/ricedebias.cpp lines 185, 190, 195). -/
def errMsg (c : MismatchClass) (a b : String) : String :=
  match c with
  | MismatchClass.extent => "‘" ++ a ++ "’ and ‘" ++ b ++ "’ do not match."
  | MismatchClass.spacing => "The pixel sizes of ‘" ++ a ++ "’ and ‘" ++ b ++ "’ do not match."
  | MismatchClass.coords => "The coordinate systems of ‘" ++ a ++ "’ and ‘" ++ b ++ "’ do not match."

/- ------------------------------------------------------------------
Model of C++ `istringstream >> double` extraction: skip leading whitespace,
then read an optional sign, a digit string with an optional fractional part,
and an optional exponent; the longest valid numeric head of the string is
consumed and converted, and the remaining characters are left unread.
Extraction fails iff no valid numeric head exists.
------------------------------------------------------------------ -/

/-- Numeric value of a digit string (most significant first). -/
def natOfDigits (ds : List Char) : Nat :=
  ds.foldl (fun n c => 10 * n + (c.toNat - 48)) 0

/-- Split a character list into its leading digits and the rest. -/
def spanDigits (cs : List Char) : List Char × List Char :=
  cs.span Char.isDigit

/-- Apply an optional exponent part to an already-read mantissa; if the
exponent marker is not followed by digits, it is left unread (the mantissa
alone is the extracted number). -/
def expPart (m : Val) (cs : List Char) : Val × List Char :=
  match cs with
  | [] => (m, [])
  | c :: rest =>
    if c = 'e' ∨ c = 'E' then
      match rest with
      | [] => (m, cs)
      | s :: rest2 =>
        if s = '+' then
          match spanDigits rest2 with
          | (ds, rest3) => if ds.isEmpty then (m, cs) else (m * 10 ^ natOfDigits ds, rest3)
        else if s = '-' then
          match spanDigits rest2 with
          | (ds, rest3) => if ds.isEmpty then (m, cs) else (m / 10 ^ natOfDigits ds, rest3)
        else
          match spanDigits rest with
          | (ds, rest3) => if ds.isEmpty then (m, cs) else (m * 10 ^ natOfDigits ds, rest3)
    else (m, cs)

/-- Continue extraction after the integer digits: an optional fractional part,
then an optional exponent.  Fails if no digit was read at all. -/
def mantissaCont (sgn : Val) (intDs : List Char) (cs : List Char) : Option (Val × List Char) :=
  match cs with
  | [] => if intDs.isEmpty then none else some (expPart (sgn * (natOfDigits intDs : Val)) [])
  | c :: rest =>
    if c = '.' then
      match spanDigits rest with
      | (fracDs, rest2) =>
        if intDs.isEmpty ∧ fracDs.isEmpty then none
        else
          some (expPart (sgn * ((natOfDigits (intDs ++ fracDs) : Val) / 10 ^ fracDs.length)) rest2)
    else if intDs.isEmpty then none
    else some (expPart (sgn * (natOfDigits intDs : Val)) cs)

/-- Extract a floating-point number from the head of a character list. -/
def floatFromChars (cs : List Char) : Option (Val × List Char) :=
  match cs with
  | [] => none
  | c :: rest =>
    if c = '+' then
      match spanDigits rest with
      | (ds, cs2) => mantissaCont 1 ds cs2
    else if c = '-' then
      match spanDigits rest with
      | (ds, cs2) => mantissaCont (-1) ds cs2
    else
      match spanDigits cs with
      | (ds, cs2) => mantissaCont 1 ds cs2

/-- Model of `std::istringstream sin(s); sin >> value`: extraction of a
floating-point number from the head of `s`, returning the value and the
unread rest, or `none` on extraction failure. -/
def extractFloat (s : String) : Option (Val × List Char) :=
  floatFromChars (s.toList.dropWhile Char.isWhitespace)

/-- Full parse of a string as a floating-point number: extraction succeeds and
consumes the whole string.  This is the notion the spec uses ("successful full
parse"); the source itself only tests extraction success. -/
def parsesAsFloat (s : String) : Option Val :=
  match extractFloat s with
  | some (v, []) => some v
  | _ => none

/- ------------------------------------------------------------------
Option resolvers (`read_mask`, `read_rician`, `read_maxdiff`).
------------------------------------------------------------------ -/

/-- Resolver `read_mask` (src/ricedebias.cpp lines 104-115): absent option or
the literal "none" means no mask; otherwise the string is a path and the mask
volume is loaded from it. -/
def read_mask (opt : Option String) (load : String → Vol3) : Option Vol3 :=
  match opt with
  | none => none
  | some s => if s = "none" then none else some (load s)

/-- Resolver `read_rician` (src/ricedebias.cpp lines 117-137): absent option or
the literal "none" gives the pair (0, no volume); otherwise the string goes
through stream extraction — on failure it is treated as a path and the noise
volume is loaded, on success the extracted value is the scalar noise level. -/
def read_rician (opt : Option String) (load : String → Vol3) : Val × Option Vol3 :=
  match opt with
  | none => ((0 : Val), none)
  | some s =>
    if s = "none" then ((0 : Val), none)
    else
      match extractFloat s with
      | none => ((0 : Val), some (load s))
      | some p => (p.1, none)

/-- Resolver `read_maxdiff` (src/ricedebias.cpp lines 139-160): absent option
gives the default 3.05e-3; otherwise extraction failure is a fatal error with
the literal diagnostic, and success returns the extracted value. -/
def read_maxdiff (opt : Option String) : Except String Val :=
  match opt with
  | none => Except.ok ((61 : Val) / 20000)
  | some s =>
    match extractFloat s with
    | none => Except.error ("Unable to parse ‘" ++ s ++ "’.")
    | some p => Except.ok p.1

/- ------------------------------------------------------------------
Output volume and the external collaborators of `main`.
------------------------------------------------------------------ -/

/-- Output volume (`smt::onifti<float, 4>`): file name, extents, header
metadata and the grid data. -/
structure OutVol where
  fname : String
  size0 : Nat
  size1 : Nat
  size2 : Nat
  size3 : Nat
  pixsize0 : Val
  pixsize1 : Val
  pixsize2 : Val
  coords : List Val
  data : Nat → Nat → Nat → Nat → Val

/-- Modelled from the spec: the `smt::onifti` constructor (nifti.h, not part
of the translated source) allocates an output volume with the given file name
and extents, copies the header metadata (voxel spacing, coordinate transform)
from the reference volume passed to it, and fills every cell with the
allocator's default value. -/
def allocOutput (name : String) (ref : Vol4) (s0 s1 s2 s3 : Nat) (fill : Val) : OutVol :=
  { fname := name
    size0 := s0
    size1 := s1
    size2 := s2
    size3 := s3
    pixsize0 := ref.pixsize0
    pixsize1 := ref.pixsize1
    pixsize2 := ref.pixsize2
    coords := ref.coords
    data := fun _ _ _ _ => fill }

/-- External collaborators of `main`: the nifti loaders for 3- and 4-axis
volumes, the scalar correction formula `smt::ricedebias` (ricedebias.h), the
allocator's default cell fill, `smt::format_string` and `smt::threads()`. -/
structure Env where
  load3 : String → Vol3
  load4 : String → Vol4
  ricedebias : Val → Val → Val
  fill : Val
  format_string : String → String
  threads : Nat

/-- Command arguments consumed by `main` after docopt parsing: the two
positional paths and the three raw option strings (`none` meaning the option
was not supplied). -/
structure Args where
  input : String
  output : String
  mask : Option String
  rician : Option String
  maxdiff : Option String

/- ------------------------------------------------------------------
The correction loop (src/ricedebias.cpp lines 229-260).
------------------------------------------------------------------ -/

/-- Output grid contents, indexed as `data i j k t`. -/
abbrev OutData := Nat → Nat → Nat → Nat → Val

/-- Single-cell write `output(ii, jj, kk, zz) = v`. -/
def writeCell (d : OutData) (i j k t : Nat) (v : Val) : OutData :=
  fun a b c e => if a = i ∧ b = j ∧ c = k ∧ e = t then v else d a b c e

/-- Foreground test of the loop body: `(!mask) || mask(ii, jj, kk) > 0`. -/
def isForeground (mask : Option Vol3) (i j k : Nat) : Bool :=
  match mask with
  | none => true
  | some m => decide (0 < m.data i j k)

/-- Loop body for one cell (src/ricedebias.cpp lines 237-256): on a foreground
cell the raw input value is written first, then overwritten with the corrected
value if a noise map is present, or if the scalar noise level is positive;
on a background cell nothing is written. -/
def processCell (rice : Val → Val → Val) (input : Vol4) (rician : Val × Option Vol3)
    (mask : Option Vol3) (d : OutData) (i j k t : Nat) : OutData :=
  if isForeground mask i j k then
    let d1 := writeCell d i j k t (input.data i j k t)
    match rician.2 with
    | some nm => writeCell d1 i j k t (rice (input.data i j k t) (nm.data i j k))
    | none =>
      if 0 < rician.1 then writeCell d1 i j k t (rice (input.data i j k t) rician.1)
      else d1
  else d

/-- Innermost loop over `ii`. -/
def loopI (rice : Val → Val → Val) (input : Vol4) (rician : Val × Option Vol3)
    (mask : Option Vol3) (j k t n0 : Nat) (d : OutData) : OutData :=
  (List.range n0).foldl (fun acc i => processCell rice input rician mask acc i j k t) d

/-- Loop over `jj`, iterating `loopI`. -/
def loopJ (rice : Val → Val → Val) (input : Vol4) (rician : Val × Option Vol3)
    (mask : Option Vol3) (k t n0 n1 : Nat) (d : OutData) : OutData :=
  (List.range n1).foldl (fun acc j => loopI rice input rician mask j k t n0 acc) d

/-- Loop over `kk`, iterating `loopJ`. -/
def loopK (rice : Val → Val → Val) (input : Vol4) (rician : Val × Option Vol3)
    (mask : Option Vol3) (t n0 n1 n2 : Nat) (d : OutData) : OutData :=
  (List.range n2).foldl (fun acc k => loopJ rice input rician mask k t n0 n1 acc) d

/-- Outer loop over `zz` (the series axis), iterating `loopK`. -/
def loopT (rice : Val → Val → Val) (input : Vol4) (rician : Val × Option Vol3)
    (mask : Option Vol3) (n0 n1 n2 n3 : Nat) (d : OutData) : OutData :=
  (List.range n3).foldl (fun acc t => loopK rice input rician mask t n0 n1 n2 acc) d

/-- The full correction loop, updating the output volume's grid.  As in the
source, `nthreads` (the value of `smt::threads()`) and `chunk` are in scope
but the quadruple loop itself is sequential and reads neither. -/
def runLoop (nthreads chunk : Nat) (rice : Val → Val → Val) (input : Vol4)
    (mask : Option Vol3) (rician : Val × Option Vol3) (out : OutVol) : OutVol :=
  { out with
    data := loopT rice input rician mask input.size0 input.size1 input.size2 input.size3 out.data }

/- ------------------------------------------------------------------
The `main` pipeline: validation, allocation, correction.
------------------------------------------------------------------ -/

/-- Observable steps of a run: a fatal diagnostic, or the allocation of the
output volume. -/
inductive Event where
  | error : String → Event
  | alloc : Event
deriving DecidableEq

/-- Mask validation of `main` (src/ricedebias.cpp lines 180-198): when a mask
is supplied, the first failing geometry check yields its diagnostic. -/
def maskErr (env : Env) (args : Args) : Option String :=
  match args.mask with
  | none => none
  | some s =>
    if s = "none" then none
    else
      match checkPair (env.load4 args.input) (env.load3 s) with
      | some c => some (errMsg c args.input s)
      | none => none

/-- Noise-map validation of `main` (src/ricedebias.cpp lines 200-218): when
the rician option resolves to a spatial map (extraction failed and the string
was loaded as a path), the first failing geometry check yields its
diagnostic. -/
def ricianErr (env : Env) (args : Args) : Option String :=
  match args.rician with
  | none => none
  | some s =>
    if s = "none" then none
    else
      match extractFloat s with
      | some _ => none
      | none =>
        match checkPair (env.load4 args.input) (env.load3 s) with
        | some c => some (errMsg c args.input s)
        | none => none

/-- The output volume produced by a successful run: allocated with the input's
extents and header (src/ricedebias.cpp line 224), then filled by the
correction loop. -/
def mainOutput (env : Env) (args : Args) : OutVol :=
  runLoop env.threads 10 env.ricedebias (env.load4 args.input)
    (read_mask args.mask env.load3) (read_rician args.rician env.load3)
    (allocOutput (env.format_string args.output) (env.load4 args.input)
      (env.load4 args.input).size0 (env.load4 args.input).size1
      (env.load4 args.input).size2 (env.load4 args.input).size3 env.fill)

/-- The `main` pipeline in source order: mask validation, noise-map
validation, maxdiff parsing, then allocation of the output and the correction
loop.  The event list records what a run performs: a failing validation
produces its diagnostic and nothing else — in particular no allocation. -/
def mainTrace (env : Env) (args : Args) : List Event × Option OutVol :=
  match maskErr env args with
  | some msg => ([Event.error msg], none)
  | none =>
    match ricianErr env args with
    | some msg => ([Event.error msg], none)
    | none =>
      match read_maxdiff args.maxdiff with
      | Except.error msg => ([Event.error msg], none)
      | Except.ok _ => ([Event.alloc], some (mainOutput env args))

/- ------------------------------------------------------------------
Pointwise behaviour of the correction loop.
------------------------------------------------------------------ -/

/-- Value a foreground cell ends with after the loop body: the noise-map
correction if a spatial map is present, else the scalar correction if the
scalar level is positive, else the raw pass-through value. -/
def dispatchValue (rice : Val → Val → Val) (input : Vol4) (rician : Val × Option Vol3)
    (i j k t : Nat) : Val :=
  match rician.2 with
  | some nm => rice (input.data i j k t) (nm.data i j k)
  | none =>
    if 0 < rician.1 then rice (input.data i j k t) rician.1
    else input.data i j k t

theorem processCell_apply (rice : Val → Val → Val) (input : Vol4)
    (rician : Val × Option Vol3) (mask : Option Vol3) (d : OutData)
    (i j k t a b c e : Nat) :
    processCell rice input rician mask d i j k t a b c e =
      if (a = i ∧ b = j ∧ c = k ∧ e = t) ∧ isForeground mask i j k = true then
        dispatchValue rice input rician i j k t
      else d a b c e := by
  obtain ⟨rv, rmap⟩ := rician
  by_cases hp : a = i ∧ b = j ∧ c = k ∧ e = t
  · cases hfg : isForeground mask i j k
    · simp [processCell, hfg, hp]
    · cases rmap with
      | none =>
        by_cases hv : (0 : Val) < rv
        · simp [processCell, dispatchValue, writeCell, hfg, hp, hv]
        · simp [processCell, dispatchValue, writeCell, hfg, hp, hv]
      | some nm =>
        simp [processCell, dispatchValue, writeCell, hfg, hp]
  · cases hfg : isForeground mask i j k
    · simp [processCell, hfg, hp]
    · cases rmap with
      | none =>
        by_cases hv : (0 : Val) < rv
        · simp [processCell, writeCell, hfg, hp, hv]
        · simp [processCell, writeCell, hfg, hp, hv]
      | some nm =>
        simp [processCell, writeCell, hfg, hp]

theorem foldl_point_preserve (g : OutData → Nat → OutData) (l : List Nat)
    (a b c e : Nat) (h : ∀ acc x, g acc x a b c e = acc a b c e) :
    ∀ d : OutData, (l.foldl g d) a b c e = d a b c e := by
  induction l with
  | nil => intro d; rfl
  | cons y l ih =>
    intro d
    have := ih (g d y)
    simpa [List.foldl_cons, h] using this

theorem foldl_point_single (g : OutData → Nat → OutData) (l : List Nat)
    (a b c e x0 : Nat) (C : Prop) [Decidable C] (v : Val)
    (haway : ∀ acc x, x ≠ x0 → g acc x a b c e = acc a b c e)
    (hat : ∀ acc, g acc x0 a b c e = if C then v else acc a b c e) :
    ∀ d : OutData, (l.foldl g d) a b c e = if x0 ∈ l ∧ C then v else d a b c e := by
  induction l with
  | nil => intro d; simp
  | cons y l ih =>
    intro d
    by_cases hy : y = x0
    · subst hy
      have hstep := hat d
      have := ih (g d y)
      by_cases hC : C
      · by_cases hm : y ∈ l <;>
          simp [List.foldl_cons, this, hstep, hC, hm]
      · simp [List.foldl_cons, this, hstep, hC]
    · have hstep := haway d y hy
      have hfold := ih (g d y)
      have hmem : (x0 ∈ l ∧ C) ↔ (x0 ∈ y :: l ∧ C) := by
        constructor
        · rintro ⟨h, hC⟩
          exact ⟨List.mem_cons_of_mem y h, hC⟩
        · rintro ⟨h, hC⟩
          rcases List.mem_cons.mp h with h0 | h0
          · exact absurd h0.symm hy
          · exact ⟨h0, hC⟩
      rw [List.foldl_cons, hfold, hstep]
      exact if_congr hmem rfl rfl

theorem loopI_away (rice : Val → Val → Val) (input : Vol4) (rician : Val × Option Vol3)
    (mask : Option Vol3) (j k t n0 : Nat) (d : OutData) (a b c e : Nat)
    (hne : ¬(b = j ∧ c = k ∧ e = t)) :
    loopI rice input rician mask j k t n0 d a b c e = d a b c e := by
  refine foldl_point_preserve _ _ a b c e (fun acc x => ?_) d
  show processCell rice input rician mask acc x j k t a b c e = acc a b c e
  rw [processCell_apply]
  have : ¬((a = x ∧ b = j ∧ c = k ∧ e = t) ∧ isForeground mask x j k = true) := by
    rintro ⟨⟨_, hb, hc, he⟩, _⟩
    exact hne ⟨hb, hc, he⟩
  rw [if_neg this]

theorem loopI_at (rice : Val → Val → Val) (input : Vol4) (rician : Val × Option Vol3)
    (mask : Option Vol3) (j k t n0 : Nat) (d : OutData) (a : Nat) :
    loopI rice input rician mask j k t n0 d a j k t =
      if a < n0 ∧ isForeground mask a j k = true then
        dispatchValue rice input rician a j k t
      else d a j k t := by
  have hsingle := foldl_point_single
    (fun acc i => processCell rice input rician mask acc i j k t) (List.range n0)
    a j k t a (isForeground mask a j k = true)
    (dispatchValue rice input rician a j k t)
    (fun acc x hx => by
      show processCell rice input rician mask acc x j k t a j k t = acc a j k t
      rw [processCell_apply]
      have : ¬((a = x ∧ j = j ∧ k = k ∧ t = t) ∧ isForeground mask x j k = true) := by
        rintro ⟨⟨ha, _, _, _⟩, _⟩
        exact hx ha.symm
      rw [if_neg this])
    (fun acc => by
      show processCell rice input rician mask acc a j k t a j k t =
        if isForeground mask a j k = true then dispatchValue rice input rician a j k t
        else acc a j k t
      rw [processCell_apply]
      by_cases hfg : isForeground mask a j k = true <;> simp [hfg])
    d
  rw [loopI, hsingle]
  simp only [List.mem_range]

theorem loopJ_away (rice : Val → Val → Val) (input : Vol4) (rician : Val × Option Vol3)
    (mask : Option Vol3) (k t n0 n1 : Nat) (d : OutData) (a b c e : Nat)
    (hne : ¬(c = k ∧ e = t)) :
    loopJ rice input rician mask k t n0 n1 d a b c e = d a b c e := by
  refine foldl_point_preserve _ _ a b c e (fun acc x => ?_) d
  refine loopI_away rice input rician mask x k t n0 acc a b c e ?_
  rintro ⟨_, hc, he⟩
  exact hne ⟨hc, he⟩

theorem loopJ_at (rice : Val → Val → Val) (input : Vol4) (rician : Val × Option Vol3)
    (mask : Option Vol3) (k t n0 n1 : Nat) (d : OutData) (a b : Nat) :
    loopJ rice input rician mask k t n0 n1 d a b k t =
      if b < n1 ∧ a < n0 ∧ isForeground mask a b k = true then
        dispatchValue rice input rician a b k t
      else d a b k t := by
  have hsingle := foldl_point_single
    (fun acc j => loopI rice input rician mask j k t n0 acc) (List.range n1)
    a b k t b (a < n0 ∧ isForeground mask a b k = true)
    (dispatchValue rice input rician a b k t)
    (fun acc x hx => by
      refine loopI_away rice input rician mask x k t n0 acc a b k t ?_
      rintro ⟨hb, _, _⟩
      exact hx hb.symm)
    (fun acc => loopI_at rice input rician mask b k t n0 acc a)
    d
  rw [loopJ, hsingle]
  simp only [List.mem_range]

theorem loopK_away (rice : Val → Val → Val) (input : Vol4) (rician : Val × Option Vol3)
    (mask : Option Vol3) (t n0 n1 n2 : Nat) (d : OutData) (a b c e : Nat)
    (hne : ¬ e = t) :
    loopK rice input rician mask t n0 n1 n2 d a b c e = d a b c e := by
  refine foldl_point_preserve _ _ a b c e (fun acc x => ?_) d
  refine loopJ_away rice input rician mask x t n0 n1 acc a b c e ?_
  rintro ⟨_, he⟩
  exact hne he

theorem loopK_at (rice : Val → Val → Val) (input : Vol4) (rician : Val × Option Vol3)
    (mask : Option Vol3) (t n0 n1 n2 : Nat) (d : OutData) (a b c : Nat) :
    loopK rice input rician mask t n0 n1 n2 d a b c t =
      if c < n2 ∧ b < n1 ∧ a < n0 ∧ isForeground mask a b c = true then
        dispatchValue rice input rician a b c t
      else d a b c t := by
  have hsingle := foldl_point_single
    (fun acc k => loopJ rice input rician mask k t n0 n1 acc) (List.range n2)
    a b c t c (b < n1 ∧ a < n0 ∧ isForeground mask a b c = true)
    (dispatchValue rice input rician a b c t)
    (fun acc x hx => by
      refine loopJ_away rice input rician mask x t n0 n1 acc a b c t ?_
      rintro ⟨hc, _⟩
      exact hx hc.symm)
    (fun acc => loopJ_at rice input rician mask c t n0 n1 acc a b)
    d
  rw [loopK, hsingle]
  simp only [List.mem_range]

theorem loopT_at (rice : Val → Val → Val) (input : Vol4) (rician : Val × Option Vol3)
    (mask : Option Vol3) (n0 n1 n2 n3 : Nat) (d : OutData) (a b c e : Nat) :
    loopT rice input rician mask n0 n1 n2 n3 d a b c e =
      if e < n3 ∧ c < n2 ∧ b < n1 ∧ a < n0 ∧ isForeground mask a b c = true then
        dispatchValue rice input rician a b c e
      else d a b c e := by
  have hsingle := foldl_point_single
    (fun acc t => loopK rice input rician mask t n0 n1 n2 acc) (List.range n3)
    a b c e e (c < n2 ∧ b < n1 ∧ a < n0 ∧ isForeground mask a b c = true)
    (dispatchValue rice input rician a b c e)
    (fun acc x hx => loopK_away rice input rician mask x n0 n1 n2 acc a b c e
      (fun h => hx h.symm))
    (fun acc => loopK_at rice input rician mask e n0 n1 n2 acc a b c)
    d
  rw [loopT, hsingle]
  simp only [List.mem_range]

/-- Pointwise description of the correction loop: an in-range foreground cell
holds the dispatched value, every other cell keeps its prior contents. -/
theorem runLoop_data (nthreads chunk : Nat) (rice : Val → Val → Val) (input : Vol4)
    (mask : Option Vol3) (rician : Val × Option Vol3) (out : OutVol) (a b c e : Nat) :
    (runLoop nthreads chunk rice input mask rician out).data a b c e =
      if e < input.size3 ∧ c < input.size2 ∧ b < input.size1 ∧ a < input.size0 ∧
          isForeground mask a b c = true then
        dispatchValue rice input rician a b c e
      else out.data a b c e := by
  rw [runLoop]
  exact loopT_at rice input rician mask input.size0 input.size1 input.size2 input.size3
    out.data a b c e

/- ------------------------------------------------------------------
Substring machinery used to analyse the diagnostic messages.
------------------------------------------------------------------ -/

/-- Sliding-window substring test on character lists. -/
def listInfix (sub : List Char) (l : List Char) : Bool :=
  match l with
  | [] => sub.isEmpty
  | _ :: tl => sub.isPrefixOf l || listInfix sub tl

/-- Substring test on strings. -/
def strContainsB (msg sub : String) : Bool :=
  listInfix sub.data msg.data

/-- Modelled from the spec: a diagnostic "names the mismatch class (extent /
spacing / coordinate frame)" when it mentions a phrase identifying that
class.  This follows the spec's words and is compared against the literal
messages the source emits. -/
def classNamedB (c : MismatchClass) (msg : String) : Bool :=
  match c with
  | MismatchClass.extent =>
    strContainsB msg ("extent") || strContainsB msg ("size") || strContainsB msg ("dimension")
  | MismatchClass.spacing =>
    strContainsB msg ("pixel sizes") || strContainsB msg ("spacing") ||
      strContainsB msg ("voxel size")
  | MismatchClass.coords =>
    strContainsB msg ("coordinate") || strContainsB msg ("transform")

theorem nil_isPrefixOf (l : List Char) : List.isPrefixOf [] l = true := by
  cases l <;> rfl

theorem isPrefixOf_self_app (l m : List Char) : l.isPrefixOf (l ++ m) = true := by
  induction l with
  | nil => exact nil_isPrefixOf m
  | cons a l ih => simp [List.isPrefixOf, ih]

theorem isPrefixOf_app (sub l m : List Char) (h : sub.isPrefixOf l = true) :
    sub.isPrefixOf (l ++ m) = true := by
  induction sub generalizing l with
  | nil => exact nil_isPrefixOf (l ++ m)
  | cons a sub ih =>
    cases l with
    | nil => simp [List.isPrefixOf] at h
    | cons b l =>
      simp only [List.isPrefixOf, Bool.and_eq_true, beq_iff_eq] at h
      simp only [List.cons_append, List.isPrefixOf, Bool.and_eq_true, beq_iff_eq]
      exact ⟨h.1, ih l h.2⟩

theorem listInfix_app (sub l m : List Char) (h : listInfix sub l = true) :
    listInfix sub (l ++ m) = true := by
  induction l with
  | nil =>
    have : sub = [] := by
      simpa [listInfix, List.isEmpty_iff] using h
    subst this
    cases m with
    | nil => rfl
    | cons x tl => simp [listInfix, List.isPrefixOf]
  | cons x l ih =>
    simp only [listInfix, Bool.or_eq_true] at h
    rcases h with h | h
    · simp only [List.cons_append, listInfix, Bool.or_eq_true]
      exact Or.inl (isPrefixOf_app sub (x :: l) m h)
    · simp only [List.cons_append, listInfix, Bool.or_eq_true]
      exact Or.inr (ih h)

theorem listInfix_here (l sub m : List Char) : listInfix sub (l ++ (sub ++ m)) = true := by
  induction l with
  | nil =>
    cases sub with
    | nil =>
      cases m with
      | nil => rfl
      | cons x tl => simp [listInfix, List.isPrefixOf]
    | cons a sub =>
      simp only [List.nil_append, List.cons_append, listInfix, Bool.or_eq_true]
      exact Or.inl (isPrefixOf_self_app (a :: sub) m)
  | cons x l ih =>
    simp only [List.cons_append, listInfix, Bool.or_eq_true]
    exact Or.inr ih

theorem data_app (x y : String) : (x ++ y).data = x.data ++ y.data := by
  cases x
  cases y
  rfl

/- ------------------------------------------------------------------
Concrete fixtures used to instantiate the theorems.
------------------------------------------------------------------ -/

/-- Sample 1x1x1 volume with unit geometry. -/
def vol3Ex : Vol3 := ⟨1, 1, 1, 1, 1, 1, [1, 0, 0, 0], fun _ _ _ => 1⟩

/-- Sample 1x1x1x1 input volume with unit geometry. -/
def vol4Ex : Vol4 := ⟨1, 1, 1, 1, 1, 1, 1, [1, 0, 0, 0], fun _ _ _ _ => 5⟩

/-- Sample 1x1x1 mask volume whose every value is zero (all background). -/
def vol3Zero : Vol3 := ⟨1, 1, 1, 1, 1, 1, [1, 0, 0, 0], fun _ _ _ => 0⟩

/-- Sample 1x1x1 volume whose spatial extent differs from `vol4Ex`. -/
def vol3Big : Vol3 := ⟨2, 1, 1, 1, 1, 1, [1, 0, 0, 0], fun _ _ _ => 1⟩

/-- Sample 1x1x1 volume whose voxel spacing differs from `vol4Ex`. -/
def vol3Spc : Vol3 := ⟨1, 1, 1, 2, 1, 1, [1, 0, 0, 0], fun _ _ _ => 1⟩

/-- Sample environment: every load yields the matching unit-geometry volume. -/
def envEx : Env := ⟨fun _ => vol3Ex, fun _ => vol4Ex, fun s n => s - n, 0, fun s => s, 4⟩

/-- Sample environment whose 3-axis loads yield an extent-mismatched volume. -/
def envC4 : Env := ⟨fun _ => vol3Big, fun _ => vol4Ex, fun s n => s - n, 0, fun s => s, 4⟩

/-- Sample environment whose 3-axis loads yield a spacing-mismatched volume. -/
def envC4s : Env := ⟨fun _ => vol3Spc, fun _ => vol4Ex, fun s n => s - n, 0, fun s => s, 4⟩

/-- Sample arguments with no options supplied. -/
def argsEx : Args := ⟨"in.nii", "out.nii", none, none, none⟩

/-- Sample arguments supplying a mask path. -/
def argsC4 : Args := ⟨"in.nii", "out.nii", some ("mask.nii"), none, none⟩

/- ------------------------------------------------------------------
C2: resolution of the --rician option.
------------------------------------------------------------------ -/

/-- C2: an absent `--rician` option or the literal "none" resolves to the
no-noise state; a string that fully parses as a floating-point number always
resolves to the scalar noise level (never to a loaded volume, whatever the
loader would return for that string); and a spatial-map resolution happens
only for strings that do not fully parse. -/
theorem rician_resolution (load : String → Vol3) :
    read_rician none load = ((0 : Val), none) ∧
    read_rician (some ("none")) load = ((0 : Val), none) ∧
    (∀ s v, parsesAsFloat s = some v → read_rician (some s) load = (v, none)) ∧
    (∀ s m, (read_rician (some s) load).2 = some m → parsesAsFloat s = none) := by
  refine ⟨rfl, rfl, ?_, ?_⟩
  · intro s v h
    by_cases hs : s = "none"
    · subst hs
      rw [show parsesAsFloat ("none") = none from by decide] at h
      simp at h
    · unfold parsesAsFloat at h
      cases he : extractFloat s with
      | none => rw [he] at h; simp at h
      | some p =>
        rw [he] at h
        obtain ⟨pv, pr⟩ := p
        cases pr with
        | nil =>
          simp at h
          subst h
          simp only [read_rician]
          rw [if_neg hs, he]
        | cons c rest => simp at h
  · intro s m h
    by_cases hs : s = "none"
    · subst hs
      simp [read_rician] at h
    · simp only [read_rician] at h
      rw [if_neg hs] at h
      cases he : extractFloat s with
      | none =>
        unfold parsesAsFloat
        rw [he]
      | some p =>
        rw [he] at h
        simp at h

/-- Witness: the string "12.5" resolves to the scalar 12.5 and never to a
loaded volume. -/
theorem rician_resolution_w :
    read_rician (some ("12.5")) envEx.load3 = ((25 : Val) / 2, none) :=
  (rician_resolution envEx.load3).2.2.1 ("12.5") ((25 : Val) / 2)
    (by with_unfolding_all rfl)

/- ------------------------------------------------------------------
C9: symmetry of the geometry compatibility check.
------------------------------------------------------------------ -/

theorem compatible_iff (a b : Geom) :
    compatible a b = true ↔
      (a.size0 = b.size0 ∧ a.size1 = b.size1 ∧ a.size2 = b.size2 ∧
       a.pixsize0 = b.pixsize0 ∧ a.pixsize1 = b.pixsize1 ∧ a.pixsize2 = b.pixsize2 ∧
       a.coords = b.coords) := by
  unfold compatible checkGeom
  split_ifs with h1 h2 h3
  · simp only [Option.isNone_some, Bool.false_eq_true, false_iff]
    rintro ⟨e0, e1, e2, _, _, _, _⟩
    rcases h1 with h | h | h
    · exact h e0
    · exact h e1
    · exact h e2
  · simp only [Option.isNone_some, Bool.false_eq_true, false_iff]
    rintro ⟨_, _, _, p0, p1, p2, _⟩
    rcases h2 with h | h | h
    · exact h p0
    · exact h p1
    · exact h p2
  · simp only [Option.isNone_some, Bool.false_eq_true, false_iff]
    rintro ⟨_, _, _, _, _, _, hc⟩
    exact h3 hc
  · simp only [Option.isNone_none, true_iff]
    push_neg at h1 h2
    exact ⟨h1.1, h1.2.1, h1.2.2, h2.1, h2.2.1, h2.2.2, not_ne_iff.mp h3⟩

/-- C9: the geometry compatibility check is symmetric, and it holds exactly
when the spatial extents, the voxel spacings and the coordinate transforms of
the two volumes are equal. -/
theorem compatible_symmetric (a b : Geom) :
    compatible a b = compatible b a ∧
    (compatible a b = true ↔
      (a.size0 = b.size0 ∧ a.size1 = b.size1 ∧ a.size2 = b.size2 ∧
       a.pixsize0 = b.pixsize0 ∧ a.pixsize1 = b.pixsize1 ∧ a.pixsize2 = b.pixsize2 ∧
       a.coords = b.coords)) := by
  refine ⟨?_, compatible_iff a b⟩
  by_cases hab : compatible a b = true
  · have hsymm : compatible b a = true := by
      obtain ⟨e0, e1, e2, p0, p1, p2, hc⟩ := (compatible_iff a b).mp hab
      exact (compatible_iff b a).mpr
        ⟨e0.symm, e1.symm, e2.symm, p0.symm, p1.symm, p2.symm, hc.symm⟩
    rw [hab, hsymm]
  · have hsymm : ¬ compatible b a = true := by
      intro hba
      obtain ⟨e0, e1, e2, p0, p1, p2, hc⟩ := (compatible_iff b a).mp hba
      exact hab ((compatible_iff a b).mpr
        ⟨e0.symm, e1.symm, e2.symm, p0.symm, p1.symm, p2.symm, hc.symm⟩)
    rw [Bool.eq_false_iff.mpr hab, Bool.eq_false_iff.mpr hsymm]

/- ------------------------------------------------------------------
C1: per-cell dispatch of the correction engine.
------------------------------------------------------------------ -/

/-- C1: every visited foreground cell first receives the raw input value and
is then dispatched on the noise specification — with a spatial noise map its
final value is `ricedebias(input, noiseMap(i, j, k))`; without one it is
`ricedebias(input, v)` when the scalar level `v` is positive, and the raw
input value otherwise. -/
theorem foreground_dispatch (nthreads chunk : Nat) (rice : Val → Val → Val)
    (input : Vol4) (mask : Option Vol3) (rician : Val × Option Vol3) (out : OutVol)
    (i j k t : Nat) (hi : i < input.size0) (hj : j < input.size1) (hk : k < input.size2)
    (ht : t < input.size3) (hfg : isForeground mask i j k = true) :
    (runLoop nthreads chunk rice input mask rician out).data i j k t =
      match rician.2 with
      | some nm => rice (input.data i j k t) (nm.data i j k)
      | none =>
        if 0 < rician.1 then rice (input.data i j k t) rician.1
        else input.data i j k t := by
  rw [runLoop_data, if_pos ⟨ht, hk, hj, hi, hfg⟩]
  rfl

/-- Witness: on a 1x1x1x1 input with a spatial noise map, the single cell
holds the map-corrected value. -/
theorem foreground_dispatch_w :
    (runLoop 4 10 envEx.ricedebias vol4Ex none ((0 : Val), some vol3Ex)
        (allocOutput ("o") vol4Ex 1 1 1 1 0)).data 0 0 0 0 =
      envEx.ricedebias (vol4Ex.data 0 0 0 0) (vol3Ex.data 0 0 0) :=
  foreground_dispatch 4 10 envEx.ricedebias vol4Ex none ((0 : Val), some vol3Ex)
    (allocOutput ("o") vol4Ex 1 1 1 1 0) 0 0 0 0
    (by decide) (by decide) (by decide) (by decide) rfl

/- ------------------------------------------------------------------
C5: background cells are never written.
------------------------------------------------------------------ -/

/-- C5: when a mask is present, a cell whose mask value is not strictly
positive is never written — it keeps the allocator's default fill, whatever
the input holds there; and when the mask is absent every voxel is treated as
foreground. -/
theorem background_default (nthreads chunk : Nat) (rice : Val → Val → Val)
    (input : Vol4) (m : Vol3) (rician : Val × Option Vol3) (name : String) (ref : Vol4)
    (s0 s1 s2 s3 : Nat) (fill : Val) (i j k t : Nat) (hbg : m.data i j k ≤ 0) :
    (runLoop nthreads chunk rice input (some m) rician
        (allocOutput name ref s0 s1 s2 s3 fill)).data i j k t = fill ∧
    isForeground none i j k = true := by
  constructor
  · have hf : isForeground (some m) i j k = false := by
      unfold isForeground
      simp only [decide_eq_false_iff_not]
      exact not_lt.mpr hbg
    have hcond : ¬(t < input.size3 ∧ k < input.size2 ∧ j < input.size1 ∧
        i < input.size0 ∧ isForeground (some m) i j k = true) := by
      rintro ⟨_, _, _, _, hx⟩
      rw [hf] at hx
      simp at hx
    rw [runLoop_data, if_neg hcond]
    rfl
  · rfl

/-- Witness: with an all-zero mask the single cell of a 1x1x1x1 run keeps the
default fill 7 rather than the input value 5. -/
theorem background_default_w :
    (runLoop 4 10 envEx.ricedebias vol4Ex (some vol3Zero) ((2 : Val), none)
        (allocOutput ("o") vol4Ex 1 1 1 1 7)).data 0 0 0 0 = 7 ∧
    isForeground none 0 0 0 = true :=
  background_default 4 10 envEx.ricedebias vol4Ex vol3Zero ((2 : Val), none)
    ("o") vol4Ex 1 1 1 1 7 0 0 0 0 (by decide)

/- ------------------------------------------------------------------
C7: the output does not depend on the number of threads.
------------------------------------------------------------------ -/

/-- C7: a run with `smt::threads()` reporting any value `n` produces exactly
the same trace and output volume as a run reporting 1: the correction loop is
sequential and never consumes the thread count. -/
theorem threads_not_consumed (env : Env) (args : Args) (n : Nat) :
    mainTrace { env with threads := n } args = mainTrace { env with threads := 1 } args := rfl

/- ------------------------------------------------------------------
C6: the output does not depend on the parsed --maxdiff value.
------------------------------------------------------------------ -/

/-- C6: for any two `--maxdiff` strings that both extract as floating-point
numbers, the run produces identical traces and output volumes: the parsed
value is never consumed by the correction loop. -/
theorem maxdiff_not_consumed (env : Env) (args : Args) (s1 s2 : String)
    (p1 p2 : Val × List Char) (h1 : extractFloat s1 = some p1)
    (h2 : extractFloat s2 = some p2) :
    mainTrace env { args with maxdiff := some s1 } =
      mainTrace env { args with maxdiff := some s2 } := by
  cases args with
  | mk ain aout amask arician amaxdiff =>
    show mainTrace env (Args.mk ain aout amask arician (some s1)) =
      mainTrace env (Args.mk ain aout amask arician (some s2))
    have hx1 : read_maxdiff (Args.mk ain aout amask arician (some s1)).maxdiff =
        Except.ok p1.1 := by
      show read_maxdiff (some s1) = Except.ok p1.1
      simp only [read_maxdiff]
      rw [h1]
    have hx2 : read_maxdiff (Args.mk ain aout amask arician (some s2)).maxdiff =
        Except.ok p2.1 := by
      show read_maxdiff (some s2) = Except.ok p2.1
      simp only [read_maxdiff]
      rw [h2]
    have hm : maskErr env (Args.mk ain aout amask arician (some s1)) =
        maskErr env (Args.mk ain aout amask arician (some s2)) := rfl
    have hr : ricianErr env (Args.mk ain aout amask arician (some s1)) =
        ricianErr env (Args.mk ain aout amask arician (some s2)) := rfl
    have ho : mainOutput env (Args.mk ain aout amask arician (some s1)) =
        mainOutput env (Args.mk ain aout amask arician (some s2)) := rfl
    unfold mainTrace
    rw [hx1, hx2, hm, hr, ho]

/-- Witness: a run with `--maxdiff 1.0` equals the same run with
`--maxdiff 2.0`. -/
theorem maxdiff_not_consumed_w :
    mainTrace envEx { argsEx with maxdiff := some ("1.0") } =
      mainTrace envEx { argsEx with maxdiff := some ("2.0") } :=
  maxdiff_not_consumed envEx argsEx ("1.0") ("2.0") ((1 : Val), []) ((2 : Val), [])
    (by with_unfolding_all rfl) (by with_unfolding_all rfl)

/- ------------------------------------------------------------------
C8: the output volume carries the input's extents and header.
------------------------------------------------------------------ -/

/-- C8: every successfully produced output volume has the input's extents on
all four axes and the input's header metadata (voxel spacings and coordinate
transform). -/
theorem output_header_copied (env : Env) (args : Args) (o : OutVol)
    (h : (mainTrace env args).2 = some o) :
    o.size0 = (env.load4 args.input).size0 ∧ o.size1 = (env.load4 args.input).size1 ∧
    o.size2 = (env.load4 args.input).size2 ∧ o.size3 = (env.load4 args.input).size3 ∧
    o.pixsize0 = (env.load4 args.input).pixsize0 ∧
    o.pixsize1 = (env.load4 args.input).pixsize1 ∧
    o.pixsize2 = (env.load4 args.input).pixsize2 ∧
    o.coords = (env.load4 args.input).coords := by
  unfold mainTrace at h
  cases hm : maskErr env args with
  | some msg => rw [hm] at h; simp at h
  | none =>
    rw [hm] at h
    cases hr : ricianErr env args with
    | some msg => rw [hr] at h; simp at h
    | none =>
      rw [hr] at h
      cases hx : read_maxdiff args.maxdiff with
      | error msg => rw [hx] at h; simp at h
      | ok v =>
        rw [hx] at h
        simp only [Option.some.injEq] at h
        subst h
        exact ⟨rfl, rfl, rfl, rfl, rfl, rfl, rfl, rfl⟩

/-- Output volume of the sample successful run. -/
def mainOutEx : OutVol := mainOutput envEx argsEx

/-- Witness: the sample run's output volume carries the input's extents and
header fields. -/
theorem output_header_copied_w :
    mainOutEx.size0 = (envEx.load4 argsEx.input).size0 ∧
    mainOutEx.size1 = (envEx.load4 argsEx.input).size1 ∧
    mainOutEx.size2 = (envEx.load4 argsEx.input).size2 ∧
    mainOutEx.size3 = (envEx.load4 argsEx.input).size3 ∧
    mainOutEx.pixsize0 = (envEx.load4 argsEx.input).pixsize0 ∧
    mainOutEx.pixsize1 = (envEx.load4 argsEx.input).pixsize1 ∧
    mainOutEx.pixsize2 = (envEx.load4 argsEx.input).pixsize2 ∧
    mainOutEx.coords = (envEx.load4 argsEx.input).coords :=
  output_header_copied envEx argsEx mainOutEx rfl

/- ------------------------------------------------------------------
C4: fail-fast behaviour and content of the mismatch diagnostics.
------------------------------------------------------------------ -/

theorem listInfix_pre (x sub l : List Char) (h : listInfix sub l = true) :
    listInfix sub (x ++ l) = true := by
  induction x with
  | nil => exact h
  | cons c x ih =>
    simp only [List.cons_append, listInfix, Bool.or_eq_true]
    exact Or.inr ih

theorem listInfix_self (sub m : List Char) : listInfix sub (sub ++ m) = true :=
  listInfix_here [] sub m

theorem errMsg_contains_both (c : MismatchClass) (a b : String) :
    strContainsB (errMsg c a b) a = true ∧ strContainsB (errMsg c a b) b = true := by
  cases c <;>
    refine ⟨?_, ?_⟩ <;>
      · unfold strContainsB errMsg
        simp only [data_app, List.append_assoc]
        first
        | exact listInfix_pre _ _ _ (listInfix_self _ _)
        | exact listInfix_pre _ _ _ (listInfix_pre _ _ _ (listInfix_pre _ _ _
            (listInfix_self _ _)))

theorem spacing_msg_named (a b : String) :
    classNamedB MismatchClass.spacing (errMsg MismatchClass.spacing a b) = true := by
  have h : strContainsB (errMsg MismatchClass.spacing a b) ("pixel sizes") = true := by
    unfold strContainsB errMsg
    simp only [data_app, List.append_assoc]
    exact listInfix_app _ _ _ (by decide)
  simp [classNamedB, h]

theorem coords_msg_named (a b : String) :
    classNamedB MismatchClass.coords (errMsg MismatchClass.coords a b) = true := by
  have h : strContainsB (errMsg MismatchClass.coords a b) ("coordinate") = true := by
    unfold strContainsB errMsg
    simp only [data_app, List.append_assoc]
    exact listInfix_app _ _ _ (by decide)
  simp [classNamedB, h]

/-- C4 (amended): whenever a supplied mask or noise-map volume fails a
geometry check against the input, the run emits the corresponding diagnostic
and stops — the output volume is never allocated and no cell is written.  The
diagnostic always names the two volumes involved; for voxel-spacing and
coordinate-transform mismatches it also names the mismatch class, whereas the
extent-mismatch diagnostic names only the two volumes (see the
counterexample). -/
theorem geometry_mismatch_failfast (env : Env) (args : Args) (s : String)
    (c : MismatchClass) :
    ((args.mask = some s ∧ s ≠ "none" ∧
        checkPair (env.load4 args.input) (env.load3 s) = some c) →
      mainTrace env args = ([Event.error (errMsg c args.input s)], none) ∧
      Event.alloc ∉ (mainTrace env args).1 ∧
      strContainsB (errMsg c args.input s) args.input = true ∧
      strContainsB (errMsg c args.input s) s = true ∧
      (c = MismatchClass.spacing →
        classNamedB MismatchClass.spacing (errMsg c args.input s) = true) ∧
      (c = MismatchClass.coords →
        classNamedB MismatchClass.coords (errMsg c args.input s) = true)) ∧
    ((maskErr env args = none ∧ args.rician = some s ∧ s ≠ "none" ∧
        extractFloat s = none ∧
        checkPair (env.load4 args.input) (env.load3 s) = some c) →
      mainTrace env args = ([Event.error (errMsg c args.input s)], none) ∧
      Event.alloc ∉ (mainTrace env args).1 ∧
      strContainsB (errMsg c args.input s) args.input = true ∧
      strContainsB (errMsg c args.input s) s = true ∧
      (c = MismatchClass.spacing →
        classNamedB MismatchClass.spacing (errMsg c args.input s) = true) ∧
      (c = MismatchClass.coords →
        classNamedB MismatchClass.coords (errMsg c args.input s) = true)) := by
  constructor
  · rintro ⟨hmask, hnone, hcheck⟩
    have hme : maskErr env args = some (errMsg c args.input s) := by
      simp only [maskErr]
      rw [hmask]
      simp only [if_neg hnone]
      rw [hcheck]
    have htrace : mainTrace env args = ([Event.error (errMsg c args.input s)], none) := by
      unfold mainTrace
      rw [hme]
    refine ⟨htrace, ?_, (errMsg_contains_both c args.input s).1,
      (errMsg_contains_both c args.input s).2, ?_, ?_⟩
    · rw [htrace]
      simp
    · intro hc
      subst hc
      exact spacing_msg_named args.input s
    · intro hc
      subst hc
      exact coords_msg_named args.input s
  · rintro ⟨hmok, hrician, hnone, hext, hcheck⟩
    have hre : ricianErr env args = some (errMsg c args.input s) := by
      simp only [ricianErr]
      rw [hrician]
      simp only [if_neg hnone]
      rw [hext, hcheck]
    have htrace : mainTrace env args = ([Event.error (errMsg c args.input s)], none) := by
      unfold mainTrace
      rw [hmok, hre]
    refine ⟨htrace, ?_, (errMsg_contains_both c args.input s).1,
      (errMsg_contains_both c args.input s).2, ?_, ?_⟩
    · rw [htrace]
      simp
    · intro hc
      subst hc
      exact spacing_msg_named args.input s
    · intro hc
      subst hc
      exact coords_msg_named args.input s

/-- Counterexample to C4 as stated: on an extent mismatch between input and
mask the run does fail before allocation, but its diagnostic — the literal
"‘in.nii’ and ‘mask.nii’ do not match." — names no mismatch class: it
mentions none of "extent", "size" or "dimension". -/
theorem extent_msg_lacks_class :
    checkPair (envC4.load4 argsC4.input) (envC4.load3 ("mask.nii")) =
      some MismatchClass.extent ∧
    (mainTrace envC4 argsC4).1 =
      [Event.error ("‘in.nii’ and ‘mask.nii’ do not match.")] ∧
    (mainTrace envC4 argsC4).2 = none ∧
    classNamedB MismatchClass.extent ("‘in.nii’ and ‘mask.nii’ do not match.") = false := by
  refine ⟨by with_unfolding_all rfl, by with_unfolding_all rfl, rfl,
    by with_unfolding_all rfl⟩

/-- Sample arguments supplying a mask path, used with the spacing-mismatch
environment. -/
def argsC4s : Args := ⟨"in.nii", "out.nii", some ("mask.nii"), none, none⟩

/-- Witness: a voxel-spacing mismatch between input and mask stops the run
before allocation with a diagnostic naming both volumes and the spacing
class. -/
theorem geometry_mismatch_failfast_w :
    mainTrace envC4s argsC4s =
      ([Event.error (errMsg MismatchClass.spacing argsC4s.input ("mask.nii"))], none) ∧
    Event.alloc ∉ (mainTrace envC4s argsC4s).1 ∧
    strContainsB (errMsg MismatchClass.spacing argsC4s.input ("mask.nii"))
      argsC4s.input = true ∧
    strContainsB (errMsg MismatchClass.spacing argsC4s.input ("mask.nii"))
      ("mask.nii") = true ∧
    (MismatchClass.spacing = MismatchClass.spacing →
      classNamedB MismatchClass.spacing
        (errMsg MismatchClass.spacing argsC4s.input ("mask.nii")) = true) ∧
    (MismatchClass.spacing = MismatchClass.coords →
      classNamedB MismatchClass.coords
        (errMsg MismatchClass.spacing argsC4s.input ("mask.nii")) = true) :=
  (geometry_mismatch_failfast envC4s argsC4s ("mask.nii") MismatchClass.spacing).1
    ⟨rfl, by decide, by with_unfolding_all rfl⟩

end RiceDebias
